import Mathlib

/-!
Verification development for the media-zip-showcase session pipeline.

The definitions below are a shallow embedding of the Python sources under
`backend/`: `config.py`, `models.py`, `tasks.py`, `utils/downloader.py`,
`utils/media_processor.py` and `utils/slideshow_generator.py`.  Pure code is
translated to Lean functions; effectful code (filesystem, record store,
external rendering processes) is modelled by explicit state passing plus
oracle parameters standing for the outcomes of the external collaborators.
Filenames are modelled as `List Char`.
-/

deriving instance DecidableEq for Except

namespace MediaZip

/-! ## config.py (`Settings`) -/

def MAX_EXTRACTED_SIZE : Nat := 1024 * 1024 * 1024

def MAX_DOWNLOAD_SIZE : Nat := 2 * 1024 * 1024 * 1024

def MAX_FILES_PER_ZIP : Nat := 200

def MAX_SLIDESHOW_IMAGES : Nat := 30

/-! ## media_processor.py: `MediaProcessor.sanitize_filename`

`sanitize_filename` first replaces every character of `<>:"/\|?*` with `_`
(`re.sub`), then, when the result is longer than 255 characters, truncates it
to `name[:255 - len(ext)] + ext` where `(name, ext) = os.path.splitext(...)`.
-/

/-- The character class of `re.sub(r'[<>:"/\\|?*]', '_', filename)`. -/
def forbiddenChar (c : Char) : Bool :=
  c = '<' || c = '>' || c = ':' || c = '"' || c = '/' || c = '\\' ||
  c = '|' || c = '?' || c = '*'

def sanChar (c : Char) : Char :=
  if forbiddenChar c then '_' else c

/-- Index of the last occurrence of `c` (Python `str.rfind`), `none` if absent. -/
def rfindIdx (c : Char) (p : List Char) : Option Nat :=
  (p.foldl (fun st ch => (st.1 + 1, if ch = c then some st.1 else st.2))
    ((0 : Nat), (none : Option Nat))).2

/-- `os.path.splitext` for strings without path separators (the input here was
already passed through the character substitution, so it contains no `/` or
`\`): split at the last dot unless every character before it is a dot
(leading-dot filenames have no extension). -/
def splitext (p : List Char) : List Char × List Char :=
  match rfindIdx '.' p with
  | none => (p, [])
  | some d => if (p.take d).all (fun c => c = '.') then (p, []) else (p.take d, p.drop d)

/-- Python slice `s[:k]` for a possibly negative `k`. -/
def pyTake (s : List Char) (k : Int) : List Char :=
  if 0 ≤ k then s.take k.toNat else s.take (s.length - (-k).toNat)

def sanitize_filename (x : List Char) : List Char :=
  let f := x.map sanChar
  if f.length > 255 then
    let ne := splitext f
    pyTake ne.1 (255 - (ne.2.length : Int)) ++ ne.2
  else f

/-! ## models.py -/

/-- `SessionStatus(str, Enum)` with exactly the members declared in
`models.py` lines 7-12.  (Note that `tasks.py` additionally refers to a
`GENERATING_SLIDESHOW` attribute which this enum does not declare.) -/
inductive SessionStatus where
  | queued
  | downloading
  | processing
  | ready
  | failed
deriving DecidableEq, Repr

/-- Python attribute access `SessionStatus.<name>` on the enum class:
declared members resolve to their value, any other name raises
`AttributeError`. -/
def sessionStatusAttr (name : String) : Option SessionStatus :=
  if name = "QUEUED" then some .queued
  else if name = "DOWNLOADING" then some .downloading
  else if name = "PROCESSING" then some .processing
  else if name = "READY" then some .ready
  else if name = "FAILED" then some .failed
  else none

/-- `SessionManifest` restricted to the fields the tasks read or write.
Media files are identified by their `file_path` strings. -/
structure Manifest where
  images : List String
  videos : List String
  audioFiles : List String
  slideshow_video : Option String
  slideshow_ready : Bool
deriving DecidableEq, Repr

/-- The session metadata record (`sessions/<id>.json`), restricted to the
fields `_update_session_status` touches. -/
structure SessionRec where
  status : SessionStatus
  error_message : Option String
  progress : Option Nat
  manifest : Option Manifest
deriving DecidableEq, Repr

/-- `_update_session_status` applied to an existing record: `status` is set
unconditionally; `manifest` only when passed (a manifest dict is truthy);
`error_message` only when truthy (a `None` or empty message leaves the field
alone); `progress` whenever it is not `None`. -/
def applyUpdate (r : SessionRec) (s : SessionStatus) (man : Option Manifest)
    (err : Option String) (prog : Option Nat) : SessionRec :=
  { status := s
    manifest := match man with | some m => some m | none => r.manifest
    error_message :=
      match err with
      | some e => if e = "" then r.error_message else some e
      | none => r.error_message
    progress := match prog with | some p => some p | none => r.progress }

/-! ## Archive entries and extraction (tasks.py / downloader.py) -/

/-- A zip archive entry as seen through `zipfile.ZipInfo`. -/
structure ZipInfo where
  filename : List Char
  is_dir : Bool
  file_size : Nat
deriving DecidableEq, Repr

/-- Python's substring test `'..' in s`. -/
def hasDotDot : List Char → Bool
  | '.' :: '.' :: _ => true
  | _ :: rest => hasDotDot rest
  | [] => false

/-- Python's `s.startswith('/')`. -/
def headSlash : List Char → Bool
  | '/' :: _ => true
  | _ => false

/-- Split a path on `/` (components, empty ones included). -/
def splitSlash (s : List Char) : List (List Char) :=
  s.splitOn '/'

/-- `pathlib.PurePosixPath(s).name`: the last path component after dropping
empty and `.` components; `''` when no component remains. -/
def pathName (s : List Char) : List Char :=
  (((splitSlash s).filter (fun c => ¬(c = [] ∨ c = ['.']))).getLast?).getD []

/-- The typed errors of the pipeline, with the message `str(e)` carries. -/
inductive PipeError where
  | fileNotFound
  | pathTraversal
  | tooManyFiles
  | tooLargeExtract
  | pathTraversalExtract
  | writeNotFile
  | probeFailure (msg : String)
  | attrMissing (name : String)
  | dlFailed (msg : String)
  | dlNotZip
  | dlTooMany
  | dlTooLarge
deriving DecidableEq, Repr

def PipeError.message : PipeError → String
  | .fileNotFound => "Uploaded zip file not found."
  | .pathTraversal => "Path traversal attempt detected in ZIP."
  | .tooManyFiles => "Exceeded max file limit of 200."
  | .tooLargeExtract => "Exceeded max extracted size of 1073741824 bytes."
  | .pathTraversalExtract => "Path traversal attempt detected during extraction."
  | .writeNotFile => "Is a directory"
  | .probeFailure m => m
  | .attrMissing n => n
  | .dlFailed m => m
  | .dlNotZip => "Downloaded file is not a valid ZIP archive"
  | .dlTooMany => "Too many files in ZIP"
  | .dlTooLarge => "ZIP contents too large"

/-- The pre-scan loop of the upload branch of `process_zip_session`
(tasks.py lines 64-78): per non-directory entry, first the path-escape
check, then the running file count against `MAX_FILES_PER_ZIP`, then the
running uncompressed total against `MAX_EXTRACTED_SIZE`. -/
def preScanLoop : List ZipInfo → Nat → Nat → Except PipeError Unit
  | [], _, _ => .ok ()
  | e :: rest, count, total =>
    if e.is_dir then preScanLoop rest count total
    else if hasDotDot e.filename || headSlash e.filename then .error .pathTraversal
    else
      let count' := count + 1
      if count' > MAX_FILES_PER_ZIP then .error .tooManyFiles
      else
        let total' := total + e.file_size
        if total' > MAX_EXTRACTED_SIZE then .error .tooLargeExtract
        else preScanLoop rest count' total'

/-- Target filename of an upload extraction write:
`media_processor.sanitize_filename(Path(info.filename).name)`. -/
def uploadTarget (e : ZipInfo) : List Char :=
  sanitize_filename (pathName e.filename)

/-- The extraction loop of the upload branch (tasks.py lines 80-88), over the
enumerated entry list.  Each non-directory entry is written flat into the
session directory under its sanitized basename; an empty basename makes the
`open` call fail on the directory itself, and a target resolving outside the
session directory (a bare `..` component is the only possibility, since the
sanitized name contains no separator) trips the containment re-check.  A
write is recorded as (target filename, entry index); the entry index stands
for the written bytes `zip_ref.read(info.filename)`. -/
def extractLoop : List (Nat × ZipInfo) → Except PipeError (List (List Char × Nat))
  | [] => .ok []
  | p :: rest =>
    if p.2.is_dir then extractLoop rest
    else
      let t := uploadTarget p.2
      if t = [] then .error .writeNotFile
      else if t = ['.', '.'] then .error .pathTraversalExtract
      else
        match extractLoop rest with
        | .error e => .error e
        | .ok ws => .ok ((t, p.1) :: ws)

/-- The write list upload extraction produces when it succeeds. -/
def expectedWrites (entries : List ZipInfo) : List (List Char × Nat) :=
  entries.enum.filterMap fun p =>
    if p.2.is_dir then none else some (uploadTarget p.2, p.1)

/-- The writer of the bytes that finally remain at target `t`: each write
truncates and rewrites the file, so the last write in extraction order wins. -/
def finalWriter (ws : List (List Char × Nat)) (t : List Char) : Option Nat :=
  ((ws.filter (fun w => w.1 = t)).getLast?).map (fun w => w.2)

/-- The zip-bomb pre-scan of `Downloader.download_and_extract_zip`
(downloader.py lines 172-183): counts every entry (directories included),
size added before the checks, count checked against `MAX_FILES_PER_ZIP` and
the running total against `MAX_DOWNLOAD_SIZE`. -/
def remoteScanLoop : List ZipInfo → Nat → Nat → Except PipeError Unit
  | [], _, _ => .ok ()
  | e :: rest, total, count =>
    let total' := total + e.file_size
    let count' := count + 1
    if count' > MAX_FILES_PER_ZIP then .error .dlTooMany
    else if total' > MAX_DOWNLOAD_SIZE then .error .dlTooLarge
    else remoteScanLoop rest total' count'

/-- Modelled external-library behaviour: CPython's `ZipFile.extractall`
(`_extract_member`) joins each member name under the target directory after
dropping empty, `.` and `..` components; it never raises on a traversal
attempt. -/
def extractallComps (s : List Char) : List (List Char) :=
  (splitSlash s).filter (fun c => ¬(c = [] ∨ c = ['.'] ∨ c = ['.', '.']))

/-- Writes performed by `zip_ref.extractall(session_dir)` for the remote
branch: every non-directory member, at its cleaned relative component path. -/
def remoteWrites (entries : List ZipInfo) : List (List (List Char) × Nat) :=
  entries.enum.filterMap fun p =>
    if p.2.is_dir then none else some (extractallComps p.2.filename, p.1)

/-- `Downloader.download_and_extract_zip` after the byte download: `dl` is
the outcome of `download_file` (`some msg` = `DownloadError`), `isZip` the
`zipfile.is_zipfile` test, then the zip-bomb pre-scan, then `extractall`. -/
def download_and_extract_zip (dl : Option String) (isZip : Bool)
    (entries : List ZipInfo) : Except PipeError (List (List (List Char) × Nat)) :=
  match dl with
  | some m => .error (.dlFailed m)
  | none =>
    if isZip = false then .error .dlNotZip
    else
      match remoteScanLoop entries 0 0 with
      | .error e => .error e
      | .ok _ => .ok (remoteWrites entries)

/-! ## The orchestrator `process_zip_session` (tasks.py lines 36-136) -/

/-- Observable state of one pipeline run: the session record (`none` when the
metadata file is absent), the session media directory, the extracted files
(target, writing entry index), whether the slideshow job got queued, and the
trace of `(status, progress)` pairs actually written to the record. -/
structure PipeState where
  record : Option SessionRec
  mediaDirExists : Bool
  files : List (List Char × Nat)
  slideshowQueued : Bool
  trace : List (SessionStatus × Option Nat)
deriving DecidableEq, Repr

/-- One `_update_session_status` call: a no-op when the metadata file is
missing, otherwise the record rewrite plus a trace entry. -/
def PipeState.update (st : PipeState) (s : SessionStatus) (man : Option Manifest)
    (err : Option String) (prog : Option Nat) : PipeState :=
  match st.record with
  | none => st
  | some r =>
    { st with
      record := some (applyUpdate r s man err prog)
      trace := st.trace ++ [(s, prog)] }

/-- Oracle inputs of an upload-source run: whether `input.zip` is present,
the archive's entries, and the outcome of
`media_processor.process_session_directory`. -/
structure UploadEnv where
  zipExists : Bool
  entries : List ZipInfo
  probeResult : Except String Manifest

/-- Oracle inputs of a remote-source run (`url` and `google_drive` take the
same branch): the `download_file` outcome, the `is_zipfile` test, the fetched
archive's entries and the probing outcome. -/
structure RemoteEnv where
  dlResult : Option String
  isZip : Bool
  entries : List ZipInfo
  probeResult : Except String Manifest

/-- Common tail of both branches (tasks.py lines 95-124): probe, persist the
manifest, mark `READY` at progress 90, then either finish at progress 100
(no images) or look up `SessionStatus.GENERATING_SLIDESHOW` and queue the
render job.  That attribute lookup fails on the enum of `models.py`. -/
def probePhase (probe : Except String Manifest) (st : PipeState) :
    PipeState × Option PipeError :=
  match probe with
  | .error m => (st, some (.probeFailure m))
  | .ok man =>
    let st4 := st.update .ready (some man) none (some 90)
    if man.images.isEmpty then
      (st4.update .ready (some man) none (some 100), none)
    else
      match sessionStatusAttr "GENERATING_SLIDESHOW" with
      | some s =>
        ({ st4.update s (some man) none (some 90) with slideshowQueued := true }, none)
      | none => (st4, some (.attrMissing "GENERATING_SLIDESHOW"))

/-- The `try` body of `process_zip_session` for an upload source. -/
def runUpload (env : UploadEnv) (st0 : PipeState) : PipeState × Option PipeError :=
  let st1 := st0.update .downloading none none none
  if env.zipExists = false then (st1, some .fileNotFound)
  else
    let st2 := st1.update .processing none none (some 10)
    match preScanLoop env.entries 0 0 with
    | .error e => (st2, some e)
    | .ok _ =>
      match extractLoop env.entries.enum with
      | .error e => (st2, some e)
      | .ok ws =>
        let st3 := ({ st2 with files := ws }).update .processing none none (some 50)
        probePhase env.probeResult st3

/-- The `try` body of `process_zip_session` for a remote source.  Remote
writes are recorded with their components joined by `/`. -/
def runRemote (env : RemoteEnv) (st0 : PipeState) : PipeState × Option PipeError :=
  let st1 := st0.update .downloading none none none
  match download_and_extract_zip env.dlResult env.isZip env.entries with
  | .error e => (st1, some e)
  | .ok ws =>
    let flat := ws.map (fun w => (List.intercalate ['/'] w.1, w.2))
    let st2 := ({ st1 with files := flat }).update .processing none none (some 50)
    probePhase env.probeResult st2

/-- The `except` handler of `process_zip_session` (tasks.py lines 128-136):
mark `FAILED` with `str(e)` as error message, delete the session media
directory when it exists, keep the metadata record, and re-raise. -/
def handleFailure : PipeState × Option PipeError → PipeState × Option PipeError
  | (st, none) => (st, none)
  | (st, some e) =>
    ({ st.update .failed none (some e.message) none with
        mediaDirExists := false
        files := [] }, some e)

def process_zip_session (env : UploadEnv) (st0 : PipeState) :
    PipeState × Option PipeError :=
  handleFailure (runUpload env st0)

def process_zip_session_remote (env : RemoteEnv) (st0 : PipeState) :
    PipeState × Option PipeError :=
  handleFailure (runRemote env st0)

/-! ## slideshow_generator.py: `SlideshowGenerator.generate_slideshow`

External effects are oracles: per image, whether the path still exists,
whether the memory sample before it exceeds the 1200 MB soft ceiling, and
whether clip creation succeeds; per chunk and for the final pass, whether
the external write/load/concatenate calls succeed. -/

/-- Runtime facts about one candidate image. -/
structure ImgSpec where
  onDisk : Bool
  memOver : Bool
  clipOk : Bool
deriving DecidableEq, Repr

/-- Oracle outcomes for the chunk writes, the chunk-video loads and the final
concatenate-and-write step, indexed by chunk number. -/
structure RenderEnv where
  chunkWriteOk : Nat → Bool
  loadOk : Nat → Bool
  finalOk : Bool

/-- The per-image loop of `_generate_chunk_slideshow` (lines 342-372): a
missing path is skipped; a memory-ceiling hit raises `MemoryError`, which the
per-image `except Exception` catches and turns into a skip; a failing clip
creation is likewise skipped.  The surviving images become clips. -/
def chunkClips (imgs : List ImgSpec) : List ImgSpec :=
  imgs.filter fun i => i.onDisk && !i.memOver && i.clipOk

/-- `_generate_chunk_slideshow` (lines 328-431): `False` when no clip
survives, otherwise the outcome of concatenating and writing the chunk. -/
def generate_chunk_slideshow (imgs : List ImgSpec) (writeOk : Bool) : Bool :=
  if (chunkClips imgs).isEmpty then false else writeOk

/-- `range(0, len(l), n)` slicing into consecutive chunks, with an explicit
fuel bound (the list length suffices for any `n ≥ 1`). -/
def chunksOfAux (n : Nat) : Nat → List α → List (List α)
  | 0, _ => []
  | _, [] => []
  | fuel + 1, l => l.take n :: chunksOfAux n fuel (l.drop n)

def chunksOf (n : Nat) (l : List α) : List (List α) :=
  chunksOfAux n l.length l

/-- Chunk indices whose chunk video got generated (lines 219-246: a failed
chunk is only logged and dropped; the loop continues). -/
def renderedChunks (imgs : List ImgSpec) (env : RenderEnv) : List Nat :=
  ((chunksOf 10 imgs).enum.filter
    (fun p => generate_chunk_slideshow p.2 (env.chunkWriteOk p.1))).map (fun p => p.1)

/-- `SlideshowGenerator.generate_slideshow` (lines 188-326): `False` for an
empty image list, when no chunk video was generated, when no generated chunk
video loads back, or when the final concatenate/write raises; `True`
otherwise. -/
def slideshow_generate (imgs : List ImgSpec) (env : RenderEnv) : Bool :=
  if imgs.isEmpty then false
  else
    let cv := renderedChunks imgs env
    if cv.isEmpty then false
    else
      let loaded := cv.filter env.loadOk
      if loaded.isEmpty then false else env.finalOk

/-! ## tasks.py: `generate_slideshow` task (lines 138-215) -/

/-- Image selection (tasks.py lines 169-178): above `MAX_SLIDESHOW_IMAGES`
the list is shuffled in place and the first `MAX_SLIDESHOW_IMAGES` taken;
`shuffled` is the oracle outcome of `random.shuffle`. -/
def selectSlideshowImages (imagePaths shuffled : List α) : List α :=
  if imagePaths.length > MAX_SLIDESHOW_IMAGES then
    shuffled.take MAX_SLIDESHOW_IMAGES
  else imagePaths

/-- Oracle inputs of one `generate_slideshow` task run: whether
`manifest.json` is present, its manifest, whether `SlideshowOptions`
validation passes, the shuffle outcome, the runtime facts for each selected
image path, and the render oracles. -/
structure GenTaskEnv where
  manifestPresent : Bool
  man : Manifest
  optsOk : Bool
  shuffled : List String
  specOf : String → ImgSpec
  renv : RenderEnv

def manifestMissingMsg : String :=
  "Slideshow generation failed: Manifest not found for slideshow generation"

def optsInvalidMsg : String :=
  "Slideshow generation failed: validation error for SlideshowOptions"

/-- Manifest enrichment on success (lines 196-197). -/
def enrichManifest (man : Manifest) : Manifest :=
  { man with slideshow_video := some "slideshow.mp4", slideshow_ready := true }

/-- `_update_session_status` on an optional record. -/
def updRec (rec : Option SessionRec) (s : SessionStatus) (man : Option Manifest)
    (err : Option String) (prog : Option Nat) : Option SessionRec :=
  rec.map fun r => applyUpdate r s man err prog

/-- The `generate_slideshow` task: the missing-manifest and invalid-options
exceptions reach the handler, which records the error with status `READY` and
re-raises (second component = propagated exception message); an empty image
list returns early without touching the record; a successful render enriches
the manifest and sets `READY`/100; a render returning `False` only logs
(lines 208-209) — the record is left untouched and nothing is raised. -/
def generate_slideshow_task (env : GenTaskEnv) (rec : Option SessionRec) :
    Option SessionRec × Option String :=
  if env.manifestPresent = false then
    (updRec rec .ready none (some manifestMissingMsg) none, some manifestMissingMsg)
  else if env.optsOk = false then
    (updRec rec .ready none (some optsInvalidMsg) none, some optsInvalidMsg)
  else if env.man.images.isEmpty then (rec, none)
  else
    let sel := selectSlideshowImages env.man.images env.shuffled
    if slideshow_generate (sel.map env.specOf) env.renv then
      (updRec rec .ready (some (enrichManifest env.man)) none (some 100), none)
    else (rec, none)

/-! ## tasks.py: `cleanup_expired_sessions` (lines 217-258) -/

/-- The two expiry timestamps of a session record, as comparable instants. -/
structure SweepRec where
  expires_at : Int
  metadata_expires_at : Int
deriving DecidableEq, Repr

/-- On-disk state the sweeper consults: the session media directories under
`MEDIA_DIR` and the parsed records under `SESSIONS_DIR`, keyed by session id. -/
structure SweepState where
  dirs : List String
  recs : List (String × SweepRec)
deriving DecidableEq, Repr

/-- Pass (a): a media directory survives when it has no record or its
record's media expiry has not passed (`now > expires_at` deletes). -/
def keepDir (now : Int) (recs : List (String × SweepRec)) (d : String) : Bool :=
  match recs.lookup d with
  | none => true
  | some r => !(decide (now > r.expires_at))

/-- `cleanup_expired_sessions`: pass (a) deletes media directories whose
record's media expiry has passed; pass (b) deletes records whose metadata
expiry has passed.  Neither pass touches the other kind of object. -/
def cleanup_expired_sessions (now : Int) (st : SweepState) : SweepState :=
  { dirs := st.dirs.filter (keepDir now st.recs)
    recs := st.recs.filter (fun x => !(decide (now > x.2.metadata_expires_at))) }

/-! ## Concrete fixtures used by the closed theorems -/

/-- A fresh session record as the API layer creates it. -/
def baseRec : SessionRec := ⟨.queued, none, none, none⟩

/-- The pipeline state right after submission: record present, media
directory created, no extracted files, empty trace. -/
def fixStart : PipeState := ⟨some baseRec, true, [], false, []⟩

def emptyMan : Manifest := ⟨[], [], [], none, false⟩

def onePhotoMan : Manifest := ⟨["photo.jpg"], [], [], none, false⟩

/-- Upload session that extracts cleanly and probes to one image. -/
def envOnePhoto : UploadEnv :=
  ⟨true, [⟨"photo.jpg".toList, false, 100⟩], .ok onePhotoMan⟩

/-- A single remote archive entry whose name climbs out of the session
directory. -/
def escEntries : List ZipInfo := [⟨"../../etc/passwd".toList, false, 10⟩]

def envRemoteEsc : RemoteEnv := ⟨none, true, escEntries, .ok emptyMan⟩

/-- 201 file entries where the very first one already busts the extracted-size
quota. -/
def overCountEntries : List ZipInfo :=
  ⟨"a.jpg".toList, false, MAX_EXTRACTED_SIZE + 1⟩ ::
    List.replicate 200 ⟨"b.jpg".toList, false, 1⟩

/-- An image that renders fine. -/
def goodImg : ImgSpec := ⟨true, false, true⟩

/-- An image whose memory sample is over the soft ceiling. -/
def memImg : ImgSpec := ⟨true, true, true⟩

/-- Eleven images: the first chunk renders, the second chunk consists of the
single over-memory image. -/
def elevenImgs : List ImgSpec := List.replicate 10 goodImg ++ [memImg]

def renvAllOk : RenderEnv := ⟨fun _ => true, fun _ => true, true⟩

/-- Render oracles where the final concatenate-and-write step fails. -/
def renvFinalFail : RenderEnv := ⟨fun _ => true, fun _ => true, false⟩

def oneImgMan : Manifest := ⟨["a.jpg"], [], [], none, false⟩

/-- Session record of a session already marked ready at progress 90. -/
def readyRec : SessionRec := ⟨.ready, none, some 90, some oneImgMan⟩

/-- A `generate_slideshow` run whose render fails in the final write. -/
def envGenFail : GenTaskEnv :=
  ⟨true, oneImgMan, true, ["a.jpg"], fun _ => goodImg, renvFinalFail⟩

/-- A `generate_slideshow` run that dies on the missing manifest. -/
def envGenNoManifest : GenTaskEnv :=
  ⟨false, oneImgMan, true, ["a.jpg"], fun _ => goodImg, renvAllOk⟩

/-- A string whose extension part exceeds 255 characters: `a.` followed by
300 `b`s. -/
def longExtName : List Char := 'a' :: '.' :: List.replicate 300 'b'

/-- Two archive entries that collide on their basename. -/
def collideEntries : List ZipInfo :=
  [⟨"a/photo.jpg".toList, false, 5⟩, ⟨"b/photo.jpg".toList, false, 6⟩]

/-- Number of non-directory entries of an archive, as the upload pre-scan
counts them. -/
def countFiles (l : List ZipInfo) : Nat :=
  (l.filter (fun e => e.is_dir = false)).length

/-- Total declared uncompressed size of the non-directory entries. -/
def sizeSum (l : List ZipInfo) : Nat :=
  ((l.filter (fun e => e.is_dir = false)).map ZipInfo.file_size).sum

/-- An upload archive holding one path-escaping entry. -/
def envUploadEsc : UploadEnv := ⟨true, [⟨"../x".toList, false, 1⟩], .ok emptyMan⟩

/-- An upload archive holding 201 small, safely named file entries. -/
def envUploadMany : UploadEnv :=
  ⟨true, List.replicate 201 ⟨"b.jpg".toList, false, 1⟩, .ok emptyMan⟩

/-- An upload run whose `input.zip` vanished. -/
def envNoZip : UploadEnv := ⟨false, [], .ok emptyMan⟩

/-- Sweeper fixture: session `a` is media-expired only, session `b` is
metadata-expired only, directory `c` has no record. -/
def sweepFix : SweepState :=
  ⟨["a", "b", "c"], [("a", ⟨5, 20⟩), ("b", ⟨20, 5⟩)]⟩

/-! # Theorems

General lemmas first, then one theorem (plus witness or counterexample) per
claim. -/

/-! ## Lemmas on sanitization -/

theorem sanChar_idem (c : Char) : sanChar (sanChar c) = sanChar c := by
  by_cases h : forbiddenChar c = true
  · have h1 : sanChar c = '_' := by simp [sanChar, h]
    rw [h1]
    simp [sanChar, forbiddenChar]
  · simp [sanChar, h]

theorem map_fix {f : α → α} : ∀ (l : List α), (∀ a ∈ l, f a = a) → l.map f = l
  | [], _ => rfl
  | a :: l, h => by
    simp only [List.map_cons, List.cons.injEq]
    exact ⟨h a (List.mem_cons_self a l), map_fix l fun b hb => h b (List.mem_cons_of_mem a hb)⟩

theorem splitext_parts (p : List Char) : (splitext p).1 ++ (splitext p).2 = p := by
  unfold splitext
  cases rfindIdx '.' p with
  | none => simp
  | some d =>
    by_cases h : (p.take d).all (fun c => c = '.') = true
    · simp [h]
    · simp [h, List.take_append_drop]

theorem splitext_fst_subset (p : List Char) : ∀ a ∈ (splitext p).1, a ∈ p := by
  unfold splitext
  cases rfindIdx '.' p with
  | none => simp
  | some d =>
    by_cases h : (p.take d).all (fun c => c = '.') = true
    · simp [h]
    · simp only [h, if_false]
      exact fun a ha => List.take_subset d p ha

theorem splitext_snd_subset (p : List Char) : ∀ a ∈ (splitext p).2, a ∈ p := by
  unfold splitext
  cases rfindIdx '.' p with
  | none => simp
  | some d =>
    by_cases h : (p.take d).all (fun c => c = '.') = true
    · simp [h]
    · simp only [h, if_false]
      exact fun a ha => List.drop_subset d p ha

theorem sanitize_fixes (x : List Char) :
    ∀ a ∈ sanitize_filename x, sanChar a = a := by
  intro a ha
  have hmem : a ∈ x.map sanChar := by
    unfold sanitize_filename at ha
    by_cases h : (x.map sanChar).length > 255
    · simp only [h, if_true] at ha
      rcases List.mem_append.mp ha with h1 | h2
      · have : a ∈ (splitext (x.map sanChar)).1 := by
          unfold pyTake at h1
          by_cases hk : (0 : Int) ≤ 255 - ((splitext (x.map sanChar)).2.length : Int)
          · simp only [hk, if_true] at h1
            exact List.take_subset _ _ h1
          · simp only [hk, if_false] at h1
            exact List.take_subset _ _ h1
        exact splitext_fst_subset _ a this
      · exact splitext_snd_subset _ a h2
    · rw [if_neg h] at ha
      exact ha
  obtain ⟨b, _, rfl⟩ := List.mem_map.mp hmem
  exact sanChar_idem b

theorem sanitize_length_le (x : List Char)
    (h : (splitext (x.map sanChar)).2.length ≤ 255) :
    (sanitize_filename x).length ≤ 255 := by
  unfold sanitize_filename
  by_cases hl : (x.map sanChar).length > 255
  · simp only [hl, if_true]
    rw [List.length_append]
    unfold pyTake
    have hk : (0 : Int) ≤ 255 - ((splitext (x.map sanChar)).2.length : Int) := by omega
    simp only [hk, if_true]
    rw [List.length_take]
    have ht : ((255 : Int) - ((splitext (x.map sanChar)).2.length : Int)).toNat =
        255 - (splitext (x.map sanChar)).2.length := by omega
    rw [ht]
    omega
  · simp only [hl, if_false]
    omega

theorem sanitize_of_clean (y : List Char) (hmap : y.map sanChar = y)
    (hlen : y.length ≤ 255) : sanitize_filename y = y := by
  have hgt : ¬((y.map sanChar).length > 255) := by rw [hmap]; omega
  unfold sanitize_filename
  rw [if_neg hgt, hmap]

set_option maxRecDepth 8000 in
/-- C8 counterexample: `sanitize_filename` is not idempotent on the filename
`a.` followed by 300 `b`s — the first pass leaves a 301-character result
(the length cap mis-handles extensions longer than 255 characters), the
second pass truncates it further to 255 characters. -/
theorem C8_counterexample :
    sanitize_filename (sanitize_filename longExtName) ≠
      sanitize_filename longExtName := by decide

/-- C8 (amended): sanitization is idempotent for every filename whose
extension after character substitution is at most 255 characters long — in
particular for every filename of at most 255 characters; filenames whose
`splitext` extension exceeds 255 characters can shrink again on the second
application. -/
theorem C8_amended_thm (x : List Char)
    (h : (splitext (x.map sanChar)).2.length ≤ 255) :
    sanitize_filename (sanitize_filename x) = sanitize_filename x :=
  sanitize_of_clean (sanitize_filename x) (map_fix _ (sanitize_fixes x))
    (sanitize_length_le x h)

theorem C8_witness :
    (splitext (("photo.jpg".toList).map sanChar)).2.length ≤ 255 ∧
    sanitize_filename (sanitize_filename ("photo.jpg".toList)) =
      sanitize_filename ("photo.jpg".toList) :=
  ⟨by decide, C8_amended_thm _ (by decide)⟩

/-! ## C1: the ready / generating_slideshow / ready sequence -/

/-- C1 (code bug): for an upload session whose archive extracts cleanly and
probes to one image, the run reaches `ready` at progress 90 and then the
attribute lookup `SessionStatus.GENERATING_SLIDESHOW` fails — the enum of
`models.py` declares no such member — so the exception handler marks the
session `failed` and deletes its media directory.  The status sequence is
downloading, processing(10), processing(50), ready(90), failed: the session
never enters a `generating_slideshow` state, the render job is never queued,
and `ready`/100 is never reached, contrary to the claim. -/
theorem C1_attr_bug :
    sessionStatusAttr "GENERATING_SLIDESHOW" = none ∧
    (process_zip_session envOnePhoto fixStart).2 =
      some (.attrMissing "GENERATING_SLIDESHOW") ∧
    (process_zip_session envOnePhoto fixStart).1.trace =
      [(.downloading, none), (.processing, some 10), (.processing, some 50),
        (.ready, some 90), (.failed, none)] ∧
    (process_zip_session envOnePhoto fixStart).1.record =
      some ⟨.failed, some "GENERATING_SLIDESHOW", some 90, some onePhotoMan⟩ ∧
    (process_zip_session envOnePhoto fixStart).1.mediaDirExists = false ∧
    (process_zip_session envOnePhoto fixStart).1.slideshowQueued = false := by
  decide

/-! ## C2: path-escape handling per source kind -/

/-- C2 counterexample: for a remote (URL or share-link) source, an archive
entry named `../../etc/passwd` — whose name contains a parent-directory
segment — does not fail extraction: the download branch performs no
path-escape check; the library's `extractall` silently drops the `..`
components and the job completes as `ready` at progress 100 instead of
being marked `failed`. -/
theorem C2_counterexample :
    hasDotDot ("../../etc/passwd".toList) = true ∧
    download_and_extract_zip none true escEntries =
      .ok [(["etc".toList, "passwd".toList], 0)] ∧
    (process_zip_session_remote envRemoteEsc fixStart).2 = none ∧
    (process_zip_session_remote envRemoteEsc fixStart).1.record =
      some ⟨.ready, none, some 100, some emptyMan⟩ := by
  decide

/-! ## C3: render failure conditions -/

/-- C3 counterexample: with eleven images whose eleventh triggers the memory
ceiling, chunk 2 fails to render (its only image is skipped by the
per-image exception handler, leaving no clips), yet the render returns
success because chunk 1 rendered: a memory-ceiling hit before an image and a
failed chunk do not fail the whole rendering job. -/
theorem C3_counterexample :
    memImg ∈ elevenImgs ∧ memImg.memOver = true ∧
    (chunksOf 10 elevenImgs).get? 1 = some [memImg] ∧
    generate_chunk_slideshow [memImg] (renvAllOk.chunkWriteOk 1) = false ∧
    slideshow_generate elevenImgs renvAllOk = true := by
  decide

/-! ## C4: entry-count quota -/

set_option maxRecDepth 8000 in
/-- C4 counterexample: an upload archive with 201 file entries whose first
entry already exceeds the extracted-size quota fails the pre-scan with the
size violation, not the too-many-entries violation the claim names —
the pre-scan reports whichever violation it meets first in scan order. -/
theorem C4_counterexample :
    countFiles overCountEntries = 201 ∧ MAX_FILES_PER_ZIP = 200 ∧
    preScanLoop overCountEntries 0 0 = .error .tooLargeExtract ∧
    PipeError.tooLargeExtract ≠ PipeError.tooManyFiles ∧
    (process_zip_session ⟨true, overCountEntries, .ok emptyMan⟩ fixStart).2 =
      some .tooLargeExtract := by
  decide

/-! ## C5: recording of rendering failures -/

/-- C5 counterexample: when `slideshow_generator.generate_slideshow` returns
`False` (here: the final write fails), the `generate_slideshow` task takes
the silent `else` branch — the session record is left completely untouched,
no error message is recorded and nothing is raised: this rendering failure
goes unrecorded. -/
theorem C5_counterexample :
    slideshow_generate
      ((selectSlideshowImages envGenFail.man.images envGenFail.shuffled).map
        envGenFail.specOf) envGenFail.renv = false ∧
    (generate_slideshow_task envGenFail (some readyRec)).1 = some readyRec ∧
    readyRec.error_message = none ∧
    (generate_slideshow_task envGenFail (some readyRec)).2 = none := by
  decide

/-! ## Lemmas on the upload pre-scan and the orchestrator state -/

theorem preScan_err_of_bad : ∀ (l : List ZipInfo) (c t : Nat),
    (∃ e ∈ l, e.is_dir = false ∧
      (hasDotDot e.filename = true ∨ headSlash e.filename = true)) →
    ∃ err, preScanLoop l c t = .error err := by
  intro l
  induction l with
  | nil => intro c t h; simp at h
  | cons a rest ih =>
    intro c t h
    cases hd : a.is_dir with
    | true =>
      simp only [preScanLoop, hd, if_true]
      apply ih
      rcases h with ⟨e, he, hprop⟩
      rcases List.mem_cons.mp he with rfl | hmem
      · rw [hd] at hprop; exact absurd hprop.1 (by simp)
      · exact ⟨e, hmem, hprop⟩
    | false =>
      simp only [preScanLoop, hd, Bool.false_eq_true, if_false]
      by_cases hb : (hasDotDot a.filename || headSlash a.filename) = true
      · simp only [hb, if_true]
        exact ⟨.pathTraversal, rfl⟩
      · simp only [hb, if_false]
        by_cases hcnt : c + 1 > MAX_FILES_PER_ZIP
        · simp only [if_pos hcnt]
          exact ⟨.tooManyFiles, rfl⟩
        · simp only [if_neg hcnt]
          by_cases hsz : t + a.file_size > MAX_EXTRACTED_SIZE
          · simp only [if_pos hsz]
            exact ⟨.tooLargeExtract, rfl⟩
          · simp only [if_neg hsz]
            apply ih
            rcases h with ⟨e, he, hprop⟩
            rcases List.mem_cons.mp he with rfl | hmem
            · exfalso
              rcases hprop.2 with h1 | h1 <;> simp [h1] at hb
            · exact ⟨e, hmem, hprop⟩

theorem countFiles_cons_dir {a : ZipInfo} (rest : List ZipInfo)
    (hd : a.is_dir = true) : countFiles (a :: rest) = countFiles rest := by
  simp [countFiles, hd]

theorem countFiles_cons_file {a : ZipInfo} (rest : List ZipInfo)
    (hd : a.is_dir = false) : countFiles (a :: rest) = countFiles rest + 1 := by
  simp [countFiles, hd, Nat.add_comm]

theorem sizeSum_cons_dir {a : ZipInfo} (rest : List ZipInfo)
    (hd : a.is_dir = true) : sizeSum (a :: rest) = sizeSum rest := by
  simp [sizeSum, hd]

theorem sizeSum_cons_file {a : ZipInfo} (rest : List ZipInfo)
    (hd : a.is_dir = false) : sizeSum (a :: rest) = a.file_size + sizeSum rest := by
  simp [sizeSum, hd]

theorem preScan_traversal : ∀ (l : List ZipInfo) (c t : Nat),
    c + countFiles l ≤ MAX_FILES_PER_ZIP →
    t + sizeSum l ≤ MAX_EXTRACTED_SIZE →
    (∃ e ∈ l, e.is_dir = false ∧
      (hasDotDot e.filename = true ∨ headSlash e.filename = true)) →
    preScanLoop l c t = .error .pathTraversal := by
  intro l
  induction l with
  | nil => intro c t _ _ h; simp at h
  | cons a rest ih =>
    intro c t hcnt hsz h
    cases hd : a.is_dir with
    | true =>
      rw [countFiles_cons_dir rest hd] at hcnt
      rw [sizeSum_cons_dir rest hd] at hsz
      simp only [preScanLoop, hd, if_true]
      apply ih c t hcnt hsz
      rcases h with ⟨e, he, hprop⟩
      rcases List.mem_cons.mp he with rfl | hmem
      · rw [hd] at hprop; exact absurd hprop.1 (by simp)
      · exact ⟨e, hmem, hprop⟩
    | false =>
      rw [countFiles_cons_file rest hd] at hcnt
      rw [sizeSum_cons_file rest hd] at hsz
      simp only [preScanLoop, hd, Bool.false_eq_true, if_false]
      by_cases hb : (hasDotDot a.filename || headSlash a.filename) = true
      · simp only [hb, if_true]
      · simp only [hb, if_false]
        have h1 : ¬(c + 1 > MAX_FILES_PER_ZIP) := by omega
        have h2 : ¬(t + a.file_size > MAX_EXTRACTED_SIZE) := by omega
        simp only [if_neg h1, if_neg h2]
        apply ih (c + 1) (t + a.file_size) (by omega) (by omega)
        rcases h with ⟨e, he, hprop⟩
        rcases List.mem_cons.mp he with rfl | hmem
        · exfalso
          rcases hprop.2 with hx | hx <;> simp [hx] at hb
        · exact ⟨e, hmem, hprop⟩

theorem preScan_err_of_count : ∀ (l : List ZipInfo) (c t : Nat),
    c + countFiles l > MAX_FILES_PER_ZIP → c ≤ MAX_FILES_PER_ZIP →
    ∃ err, preScanLoop l c t = .error err := by
  intro l
  induction l with
  | nil => intro c t hgt hle; simp [countFiles] at hgt; omega
  | cons a rest ih =>
    intro c t hgt hle
    cases hd : a.is_dir with
    | true =>
      rw [countFiles_cons_dir rest hd] at hgt
      simp only [preScanLoop, hd, if_true]
      exact ih c t hgt hle
    | false =>
      rw [countFiles_cons_file rest hd] at hgt
      simp only [preScanLoop, hd, Bool.false_eq_true, if_false]
      by_cases hb : (hasDotDot a.filename || headSlash a.filename) = true
      · simp only [hb, if_true]
        exact ⟨.pathTraversal, rfl⟩
      · simp only [hb, if_false]
        by_cases hcnt : c + 1 > MAX_FILES_PER_ZIP
        · simp only [if_pos hcnt]
          exact ⟨.tooManyFiles, rfl⟩
        · simp only [if_neg hcnt]
          by_cases hsz : t + a.file_size > MAX_EXTRACTED_SIZE
          · simp only [if_pos hsz]
            exact ⟨.tooLargeExtract, rfl⟩
          · simp only [if_neg hsz]
            exact ih (c + 1) (t + a.file_size) (by omega) (by omega)

theorem preScan_tooMany : ∀ (l : List ZipInfo) (c t : Nat),
    (∀ e ∈ l, e.is_dir = false →
      hasDotDot e.filename = false ∧ headSlash e.filename = false) →
    t + sizeSum l ≤ MAX_EXTRACTED_SIZE →
    c + countFiles l > MAX_FILES_PER_ZIP → c ≤ MAX_FILES_PER_ZIP →
    preScanLoop l c t = .error .tooManyFiles := by
  intro l
  induction l with
  | nil => intro c t _ _ hgt hle; simp [countFiles] at hgt; omega
  | cons a rest ih =>
    intro c t hsafe hsz hgt hle
    cases hd : a.is_dir with
    | true =>
      rw [countFiles_cons_dir rest hd] at hgt
      rw [sizeSum_cons_dir rest hd] at hsz
      simp only [preScanLoop, hd, if_true]
      exact ih c t (fun e he => hsafe e (List.mem_cons_of_mem a he)) hsz hgt hle
    | false =>
      rw [countFiles_cons_file rest hd] at hgt
      rw [sizeSum_cons_file rest hd] at hsz
      have ha := hsafe a (List.mem_cons_self a rest) hd
      simp only [preScanLoop, hd, Bool.false_eq_true, if_false, ha.1, ha.2,
        Bool.or_self, if_false]
      by_cases hcnt : c + 1 > MAX_FILES_PER_ZIP
      · simp only [if_pos hcnt]
      · simp only [if_neg hcnt]
        have h2 : ¬(t + a.file_size > MAX_EXTRACTED_SIZE) := by omega
        simp only [if_neg h2]
        exact ih (c + 1) (t + a.file_size)
          (fun e he => hsafe e (List.mem_cons_of_mem a he)) (by omega) (by omega)
          (by omega)

theorem remoteScan_err_of_count : ∀ (l : List ZipInfo) (t c : Nat),
    c + l.length > MAX_FILES_PER_ZIP → c ≤ MAX_FILES_PER_ZIP →
    ∃ err, remoteScanLoop l t c = .error err := by
  intro l
  induction l with
  | nil => intro t c hgt hle; simp at hgt; omega
  | cons a rest ih =>
    intro t c hgt hle
    simp only [remoteScanLoop]
    by_cases hcnt : c + 1 > MAX_FILES_PER_ZIP
    · simp only [if_pos hcnt]
      exact ⟨.dlTooMany, rfl⟩
    · simp only [if_neg hcnt]
      by_cases hsz : t + a.file_size > MAX_DOWNLOAD_SIZE
      · simp only [if_pos hsz]
        exact ⟨.dlTooLarge, rfl⟩
      · simp only [if_neg hsz]
        apply ih (t + a.file_size) (c + 1) _ (by omega)
        simp at hgt
        omega

theorem update_record_isSome (st : PipeState) (s : SessionStatus)
    (man : Option Manifest) (err : Option String) (prog : Option Nat) :
    (st.update s man err prog).record.isSome = st.record.isSome := by
  cases h : st.record <;> simp [PipeState.update, h]

theorem probePhase_record_isSome (pr : Except String Manifest) (st : PipeState) :
    ((probePhase pr st).1).record.isSome = st.record.isSome := by
  have hattr : sessionStatusAttr "GENERATING_SLIDESHOW" = none := by decide
  unfold probePhase
  cases pr with
  | error m => rfl
  | ok man =>
    simp only [hattr]
    by_cases h : man.images.isEmpty = true
    · simp [h, update_record_isSome]
    · simp [h, update_record_isSome]

theorem runUpload_record_isSome (env : UploadEnv) (st0 : PipeState) :
    ((runUpload env st0).1).record.isSome = st0.record.isSome := by
  cases hzb : env.zipExists with
  | false => simp [runUpload, hzb, update_record_isSome]
  | true =>
    cases hscan : preScanLoop env.entries 0 0 with
    | error e => simp [runUpload, hzb, hscan, update_record_isSome]
    | ok u =>
      cases hex : extractLoop env.entries.enum with
      | error e => simp [runUpload, hzb, hscan, hex, update_record_isSome]
      | ok ws =>
        simp [runUpload, hzb, hscan, hex, update_record_isSome,
          probePhase_record_isSome]

theorem record_after_update {st : PipeState} {r : SessionRec}
    (h : st.record = some r) (s : SessionStatus) (man : Option Manifest)
    (err : Option String) (prog : Option Nat) :
    (st.update s man err prog).record = some (applyUpdate r s man err prog) := by
  simp [PipeState.update, h]

/-! ## C2: amended theorem -/

/-- C2 (amended): for an upload source, any archive with a non-directory
entry whose name contains `..` or starts with `/` fails before a single file
is written (the pre-scan precedes the extraction loop) and the job is marked
`failed`; when the archive is otherwise within the count and size quotas the
reported violation is specifically the path-traversal error.  Remote (URL and
share-link) sources perform no such check: their extraction writes only
component paths free of `..`, `.` and empty segments — inside the session
directory — but never fails on a path-escaping name. -/
theorem C2_amended_thm (env : UploadEnv) (st0 : PipeState) (r0 : SessionRec)
    (hr : st0.record = some r0) (hz : env.zipExists = true)
    (hbad : ∃ e ∈ env.entries, e.is_dir = false ∧
      (hasDotDot e.filename = true ∨ headSlash e.filename = true)) :
    (∃ err, (process_zip_session env st0).2 = some err) ∧
    (process_zip_session env st0).1.files = [] ∧
    (∃ r', (process_zip_session env st0).1.record = some r' ∧
      r'.status = .failed) ∧
    (countFiles env.entries ≤ MAX_FILES_PER_ZIP →
      sizeSum env.entries ≤ MAX_EXTRACTED_SIZE →
      (process_zip_session env st0).2 = some PipeError.pathTraversal) ∧
    (∀ es : List ZipInfo, ∀ w ∈ remoteWrites es, ∀ comp ∈ w.1,
      ¬(comp = [] ∨ comp = ['.'] ∨ comp = ['.', '.'])) := by
  have hz' : ¬(env.zipExists = false) := by simp [hz]
  obtain ⟨err, herr⟩ := preScan_err_of_bad env.entries 0 0 hbad
  have hrun : runUpload env st0 =
      ((st0.update .downloading none none none).update .processing none none
        (some 10), some err) := by
    unfold runUpload
    simp [hz', herr]
  have hproc : process_zip_session env st0 =
      ({ ((st0.update .downloading none none none).update .processing none none
            (some 10)).update .failed none (some err.message) none with
          mediaDirExists := false
          files := [] }, some err) := by
    unfold process_zip_session
    rw [hrun]
    rfl
  have hrec1 := record_after_update hr SessionStatus.downloading none none none
  have hrec2 := record_after_update hrec1 SessionStatus.processing none none (some 10)
  have hrec3 := record_after_update hrec2 SessionStatus.failed none
    (some err.message) none
  refine ⟨⟨err, by rw [hproc]⟩, by rw [hproc], ?_, ?_, ?_⟩
  · refine ⟨applyUpdate
      (applyUpdate (applyUpdate r0 .downloading none none none) .processing none
        none (some 10)) .failed none (some err.message) none, ?_, rfl⟩
    rw [hproc]
    simpa using hrec3
  · intro h1 h2
    have hpt := preScan_traversal env.entries 0 0 (by omega) (by omega) hbad
    have hrun2 : runUpload env st0 =
        ((st0.update .downloading none none none).update .processing none none
          (some 10), some PipeError.pathTraversal) := by
      unfold runUpload
      simp [hz', hpt]
    unfold process_zip_session
    rw [hrun2]
    rfl
  · intro es w hw comp hcomp
    obtain ⟨p, hp, hfp⟩ := List.mem_filterMap.mp hw
    cases hdir : p.2.is_dir with
    | true => rw [if_pos hdir] at hfp; cases hfp
    | false =>
      rw [if_neg (by simp [hdir])] at hfp
      cases hfp
      have hm := List.mem_filter.mp hcomp
      simpa using hm.2

theorem C2_witness :
    (∃ err, (process_zip_session envUploadEsc fixStart).2 = some err) ∧
    (process_zip_session envUploadEsc fixStart).1.files = [] ∧
    (∃ r', (process_zip_session envUploadEsc fixStart).1.record = some r' ∧
      r'.status = .failed) ∧
    (countFiles envUploadEsc.entries ≤ MAX_FILES_PER_ZIP →
      sizeSum envUploadEsc.entries ≤ MAX_EXTRACTED_SIZE →
      (process_zip_session envUploadEsc fixStart).2 =
        some PipeError.pathTraversal) ∧
    (∀ es : List ZipInfo, ∀ w ∈ remoteWrites es, ∀ comp ∈ w.1,
      ¬(comp = [] ∨ comp = ['.'] ∨ comp = ['.', '.'])) :=
  C2_amended_thm envUploadEsc fixStart baseRec rfl rfl
    ⟨⟨"../x".toList, false, 1⟩, by decide, by decide, Or.inl (by decide)⟩

/-! ## C4: amended theorem -/

/-- C4 (amended): an upload archive with more file entries than
`MAX_FILES_PER_ZIP` always fails in the pre-scan over the entry metadata —
before any extraction write — and the job is marked `failed`; the reported
violation is specifically the too-many-entries one when no path-escaping
name and no size-quota excess is met earlier in scan order.  A remote
archive with more entries than the maximum likewise fails its pre-scan
before `extractall` runs. -/
theorem C4_amended_thm (env : UploadEnv) (st0 : PipeState) (r0 : SessionRec)
    (hr : st0.record = some r0) (hz : env.zipExists = true)
    (hc : countFiles env.entries > MAX_FILES_PER_ZIP) :
    (∃ err, (process_zip_session env st0).2 = some err) ∧
    (process_zip_session env st0).1.files = [] ∧
    (∃ r', (process_zip_session env st0).1.record = some r' ∧
      r'.status = .failed) ∧
    ((∀ e ∈ env.entries, e.is_dir = false →
        hasDotDot e.filename = false ∧ headSlash e.filename = false) →
      sizeSum env.entries ≤ MAX_EXTRACTED_SIZE →
      (process_zip_session env st0).2 = some PipeError.tooManyFiles) ∧
    (∀ es : List ZipInfo, es.length > MAX_FILES_PER_ZIP →
      ∃ err2, download_and_extract_zip none true es = .error err2) := by
  have hz' : ¬(env.zipExists = false) := by simp [hz]
  obtain ⟨err, herr⟩ :=
    preScan_err_of_count env.entries 0 0 (by omega) (by omega)
  have hrun : runUpload env st0 =
      ((st0.update .downloading none none none).update .processing none none
        (some 10), some err) := by
    unfold runUpload
    simp [hz', herr]
  have hproc : process_zip_session env st0 =
      ({ ((st0.update .downloading none none none).update .processing none none
            (some 10)).update .failed none (some err.message) none with
          mediaDirExists := false
          files := [] }, some err) := by
    unfold process_zip_session
    rw [hrun]
    rfl
  have hrec1 := record_after_update hr SessionStatus.downloading none none none
  have hrec2 := record_after_update hrec1 SessionStatus.processing none none (some 10)
  have hrec3 := record_after_update hrec2 SessionStatus.failed none
    (some err.message) none
  refine ⟨⟨err, by rw [hproc]⟩, by rw [hproc], ?_, ?_, ?_⟩
  · refine ⟨applyUpdate
      (applyUpdate (applyUpdate r0 .downloading none none none) .processing none
        none (some 10)) .failed none (some err.message) none, ?_, rfl⟩
    rw [hproc]
    simpa using hrec3
  · intro hsafe hsz
    have hmany := preScan_tooMany env.entries 0 0 hsafe (by omega) (by omega)
      (by omega)
    have hrun2 : runUpload env st0 =
        ((st0.update .downloading none none none).update .processing none none
          (some 10), some PipeError.tooManyFiles) := by
      unfold runUpload
      simp [hz', hmany]
    unfold process_zip_session
    rw [hrun2]
    rfl
  · intro es hlen
    obtain ⟨err2, hscan⟩ := remoteScan_err_of_count es 0 0 (by omega) (by omega)
    refine ⟨err2, ?_⟩
    unfold download_and_extract_zip
    simp [hscan]

set_option maxRecDepth 4000 in
theorem C4_witness :
    countFiles envUploadMany.entries > MAX_FILES_PER_ZIP ∧
    ((∃ err, (process_zip_session envUploadMany fixStart).2 = some err) ∧
    (process_zip_session envUploadMany fixStart).1.files = [] ∧
    (∃ r', (process_zip_session envUploadMany fixStart).1.record = some r' ∧
      r'.status = .failed) ∧
    ((∀ e ∈ envUploadMany.entries, e.is_dir = false →
        hasDotDot e.filename = false ∧ headSlash e.filename = false) →
      sizeSum envUploadMany.entries ≤ MAX_EXTRACTED_SIZE →
      (process_zip_session envUploadMany fixStart).2 =
        some PipeError.tooManyFiles) ∧
    (∀ es : List ZipInfo, es.length > MAX_FILES_PER_ZIP →
      ∃ err2, download_and_extract_zip none true es = .error err2)) :=
  ⟨by decide, C4_amended_thm envUploadMany fixStart baseRec rfl rfl (by decide)⟩

/-! ## C6: fatal extraction/probing failures -/

/-- C6: whenever the orchestrator body of an upload run raises — extraction
failures, probing failures and everything else the `try` block covers — the
exception handler marks the session `failed`, records `str(e)` in the
record's error field (the `str(e)` of every error raised in this pipeline is
non-empty), deletes the session's media directory, and keeps the metadata
record itself. -/
theorem C6_thm (env : UploadEnv) (st0 : PipeState) (e : PipeError)
    (r0 : SessionRec) (hr : st0.record = some r0)
    (he : (runUpload env st0).2 = some e) (hm : e.message ≠ "") :
    (process_zip_session env st0).2 = some e ∧
    (process_zip_session env st0).1.mediaDirExists = false ∧
    ∃ r', (process_zip_session env st0).1.record = some r' ∧
      r'.status = .failed ∧ r'.error_message = some e.message := by
  have hsome : ((runUpload env st0).1).record.isSome := by
    rw [runUpload_record_isSome, hr]
    rfl
  obtain ⟨r1, hr1⟩ := Option.isSome_iff_exists.mp hsome
  have hpair : runUpload env st0 = ((runUpload env st0).1, some e) := by
    have heta : ((runUpload env st0).1, (runUpload env st0).2) =
        runUpload env st0 := Prod.mk.eta
    rw [he] at heta
    exact heta.symm
  have hproc : process_zip_session env st0 =
      ({ (runUpload env st0).1.update .failed none (some e.message) none with
          mediaDirExists := false
          files := [] }, some e) := by
    unfold process_zip_session
    rw [hpair]
    rfl
  refine ⟨by rw [hproc], by rw [hproc], ?_⟩
  refine ⟨applyUpdate r1 .failed none (some e.message) none, ?_, rfl, ?_⟩
  · rw [hproc]
    simpa using record_after_update hr1 SessionStatus.failed none
      (some e.message) none
  · simp [applyUpdate, hm]

theorem C6_witness :
    (process_zip_session envNoZip fixStart).2 = some PipeError.fileNotFound ∧
    (process_zip_session envNoZip fixStart).1.mediaDirExists = false ∧
    ∃ r', (process_zip_session envNoZip fixStart).1.record = some r' ∧
      r'.status = .failed ∧
      r'.error_message = some PipeError.fileNotFound.message :=
  C6_thm envNoZip fixStart .fileNotFound baseRec rfl (by decide) (by decide)

/-! ## C3: amended theorem -/

theorem mem_chunksOfAux {α : Type _} (n : Nat) :
    ∀ (fuel : Nat) (l c : List α), c ∈ chunksOfAux n fuel l → ∀ x ∈ c, x ∈ l := by
  intro fuel
  induction fuel with
  | zero => intro l c hc; simp [chunksOfAux] at hc
  | succ f ih =>
    intro l c hc x hx
    cases l with
    | nil => simp [chunksOfAux] at hc
    | cons a t =>
      simp only [chunksOfAux] at hc
      rcases List.mem_cons.mp hc with rfl | hmem
      · exact List.take_subset n _ hx
      · exact List.drop_subset n (a :: t) (ih ((a :: t).drop n) c hmem x hx)

theorem mem_of_mem_chunksOf {α : Type _} {n : Nat} {l c : List α}
    (hc : c ∈ chunksOf n l) {x : α} (hx : x ∈ c) : x ∈ l :=
  mem_chunksOfAux n l.length l c hc x hx

theorem snd_mem_of_mem_enumFrom {α : Type _} :
    ∀ (l : List α) (n : Nat) (p : Nat × α), p ∈ l.enumFrom n → p.2 ∈ l := by
  intro l
  induction l with
  | nil => intro n p hp; simp at hp
  | cons a t ih =>
    intro n p hp
    simp only [List.enumFrom] at hp
    rcases List.mem_cons.mp hp with rfl | hmem
    · exact List.mem_cons_self a t
    · exact List.mem_cons_of_mem a (ih (n + 1) p hmem)

theorem chunk_fail_of_memOver (chunk : List ImgSpec)
    (h : ∀ x ∈ chunk, x.memOver = true) (wOk : Bool) :
    generate_chunk_slideshow chunk wOk = false := by
  have hnil : chunkClips chunk = [] := by
    apply List.filter_eq_nil_iff.mpr
    intro a ha
    simp [h a ha]
  simp [generate_chunk_slideshow, hnil]

/-- C3 (amended): the render returns failure exactly when nothing survives:
if every chunk fails to render — in particular if the memory ceiling is
exceeded before every image, since a memory-ceiling hit makes the per-image
handler skip that image — the whole render fails.  (When at least one chunk
renders, the operation can still succeed even though some other chunk failed
or some image hit the memory ceiling, as the counterexample shows.) -/
theorem C3_amended_thm (imgs : List ImgSpec) (env : RenderEnv)
    (h : (∀ p ∈ (chunksOf 10 imgs).enum,
            generate_chunk_slideshow p.2 (env.chunkWriteOk p.1) = false) ∨
         (∀ x ∈ imgs, x.memOver = true)) :
    slideshow_generate imgs env = false := by
  have hall : ∀ p ∈ (chunksOf 10 imgs).enum,
      generate_chunk_slideshow p.2 (env.chunkWriteOk p.1) = false := by
    rcases h with h | h
    · exact h
    · intro p hp
      apply chunk_fail_of_memOver
      intro x hx
      apply h
      have hc : p.2 ∈ chunksOf 10 imgs :=
        snd_mem_of_mem_enumFrom (chunksOf 10 imgs) 0 p hp
      exact mem_of_mem_chunksOf hc hx
  have hrc : renderedChunks imgs env = [] := by
    unfold renderedChunks
    have : (chunksOf 10 imgs).enum.filter
        (fun p => generate_chunk_slideshow p.2 (env.chunkWriteOk p.1)) = [] := by
      apply List.filter_eq_nil_iff.mpr
      intro p hp
      simp [hall p hp]
    rw [this]
    rfl
  by_cases he : imgs.isEmpty
  · simp [slideshow_generate, he]
  · simp [slideshow_generate, he, hrc]

theorem C3_witness :
    (∀ x ∈ [memImg], x.memOver = true) ∧
    slideshow_generate [memImg] renvAllOk = false :=
  ⟨by decide, C3_amended_thm [memImg] renvAllOk (Or.inr (by decide))⟩

/-! ## C5: amended theorem -/

/-- C5 (amended): the `generate_slideshow` task never sets the session status
to `failed` — every record it writes carries status `ready`, and otherwise
the record is left as it was; rendering failures that surface as exceptions
(missing manifest, invalid options) are recorded in the error field with
status `ready`; but a rendering failure where the generator returns `False`
leaves the session record entirely unchanged, recording nothing. -/
theorem C5_amended_thm (env : GenTaskEnv) (rec : Option SessionRec) :
    ((generate_slideshow_task env rec).1 = rec ∨
      ∃ r', (generate_slideshow_task env rec).1 = some r' ∧
        r'.status = .ready) ∧
    (env.manifestPresent = false → ∀ r0, rec = some r0 →
      ∃ r', (generate_slideshow_task env rec).1 = some r' ∧
        r'.status = .ready ∧ r'.error_message = some manifestMissingMsg) ∧
    (env.manifestPresent = true → env.optsOk = true →
      env.man.images.isEmpty = false →
      slideshow_generate
        ((selectSlideshowImages env.man.images env.shuffled).map env.specOf)
        env.renv = false →
      (generate_slideshow_task env rec).1 = rec) := by
  by_cases h1 : env.manifestPresent = false
  · refine ⟨?_, ?_, ?_⟩
    · cases hrec : rec with
      | none => left; simp [generate_slideshow_task, h1, updRec]
      | some r0 =>
        right
        exact ⟨applyUpdate r0 .ready none (some manifestMissingMsg) none,
          by simp [generate_slideshow_task, h1, updRec], rfl⟩
    · intro _ r0 hrec
      refine ⟨applyUpdate r0 .ready none (some manifestMissingMsg) none,
        by simp [generate_slideshow_task, h1, hrec, updRec], rfl, ?_⟩
      simp [applyUpdate, manifestMissingMsg]
    · intro hmp
      rw [hmp] at h1
      simp at h1
  · refine ⟨?_, fun hmp => absurd hmp h1, ?_⟩
    · by_cases h2 : env.optsOk = false
      · cases hrec : rec with
        | none => left; simp [generate_slideshow_task, h1, h2, updRec]
        | some r0 =>
          right
          exact ⟨applyUpdate r0 .ready none (some optsInvalidMsg) none,
            by simp [generate_slideshow_task, h1, h2, updRec], rfl⟩
      · by_cases h3 : env.man.images.isEmpty = true
        · left
          simp [generate_slideshow_task, h1, h2, h3]
        · by_cases h4 : slideshow_generate
              ((selectSlideshowImages env.man.images env.shuffled).map
                env.specOf) env.renv = true
          · cases hrec : rec with
            | none => left; simp [generate_slideshow_task, h1, h2, h3, h4, updRec]
            | some r0 =>
              right
              exact ⟨applyUpdate r0 .ready (some (enrichManifest env.man)) none
                  (some 100),
                by simp [generate_slideshow_task, h1, h2, h3, h4, updRec], rfl⟩
          · left
            simp [generate_slideshow_task, h1, h2, h3, h4]
    · intro _ hopts hne hgen
      have h2 : ¬(env.optsOk = false) := by simp [hopts]
      simp [generate_slideshow_task, h1, h2, hne, hgen]

theorem C5_witness :
    ∃ r', (generate_slideshow_task envGenNoManifest (some baseRec)).1 =
        some r' ∧
      r'.status = .ready ∧ r'.error_message = some manifestMissingMsg :=
  (C5_amended_thm envGenNoManifest (some baseRec)).2.1 rfl baseRec rfl

/-! ## C7: the slideshow image cap -/

/-- C7: when the candidate list exceeds `MAX_SLIDESHOW_IMAGES` (30), the list
actually rendered has exactly 30 entries drawn without replacement from the
candidates (it is a sub-permutation of the candidate list, via the shuffle
oracle's permutation contract); when the candidates number at most 30, all of
them are used unchanged. -/
theorem C7_thm {α : Type _} (paths shuffled : List α) (hp : List.Perm shuffled paths) :
    (paths.length > MAX_SLIDESHOW_IMAGES →
      (selectSlideshowImages paths shuffled).length = MAX_SLIDESHOW_IMAGES ∧
      List.Subperm (selectSlideshowImages paths shuffled) paths) ∧
    (paths.length ≤ MAX_SLIDESHOW_IMAGES →
      selectSlideshowImages paths shuffled = paths) := by
  constructor
  · intro hgt
    have hsel : selectSlideshowImages paths shuffled =
        shuffled.take MAX_SLIDESHOW_IMAGES := by
      simp [selectSlideshowImages, hgt]
    refine ⟨?_, ?_⟩
    · rw [hsel, List.length_take]
      have := hp.length_eq
      unfold MAX_SLIDESHOW_IMAGES at hgt ⊢
      omega
    · rw [hsel]
      exact ((List.take_sublist _ _).subperm).trans hp.subperm
  · intro hle
    have hn : ¬(paths.length > MAX_SLIDESHOW_IMAGES) := by omega
    simp [selectSlideshowImages, hn]

theorem C7_witness :
    (selectSlideshowImages (List.range 31) ((List.range 31).reverse)).length =
      MAX_SLIDESHOW_IMAGES ∧
    List.Subperm
      (selectSlideshowImages (List.range 31) ((List.range 31).reverse))
      (List.range 31) :=
  (C7_thm (List.range 31) ((List.range 31).reverse)
    (List.reverse_perm _)).1 (by decide)

/-! ## C9: the lifecycle sweeper -/

theorem lookup_filter_keep {β : Type _} (s : String) (p : String × β → Bool) :
    ∀ (l : List (String × β)) (r : β), l.lookup s = some r → p (s, r) = true →
      (l.filter p).lookup s = some r := by
  intro l
  induction l with
  | nil => intro r h _; simp [List.lookup] at h
  | cons a t ih =>
    intro r h hp
    cases a with
    | mk k v =>
      by_cases hk : (s == k) = true
      · have hks : k = s := (beq_iff_eq.mp hk).symm
        subst hks
        simp only [List.lookup, beq_self_eq_true] at h
        cases h
        simp [List.filter, hp, List.lookup]
      · simp only [List.lookup, hk] at h
        have hrec := ih r h hp
        by_cases hf : p (k, v) = true
        · simp only [List.filter, hf]
          simp only [List.lookup, hk]
          exact hrec
        · simp only [List.filter]
          rw [Bool.not_eq_true] at hf
          rw [hf]
          exact hrec

/-- C9: in one sweeper run, (a) a session whose media expiry has passed but
whose metadata expiry has not loses its media directory while its record
survives the record pass; (b) a session whose metadata expiry has passed but
whose media expiry has not loses its record while its media directory is
kept; (c) a media directory with no corresponding record is never deleted. -/
theorem C9_thm (now : Int) (st : SweepState) (s : String) (r : SweepRec) :
    ((s ∈ st.dirs → st.recs.lookup s = some r → now > r.expires_at →
      ¬(now > r.metadata_expires_at) →
      s ∉ (cleanup_expired_sessions now st).dirs ∧
      (cleanup_expired_sessions now st).recs.lookup s = some r)) ∧
    ((s, r) ∈ st.recs → now > r.metadata_expires_at → ¬(now > r.expires_at) →
      (s, r) ∉ (cleanup_expired_sessions now st).recs ∧
      (st.recs.lookup s = some r → s ∈ st.dirs →
        s ∈ (cleanup_expired_sessions now st).dirs)) ∧
    (s ∈ st.dirs → st.recs.lookup s = none →
      s ∈ (cleanup_expired_sessions now st).dirs) := by
  refine ⟨?_, ?_, ?_⟩
  · intro hd hlk hexp hmeta
    constructor
    · intro hmem
      have hf := List.mem_filter.mp hmem
      have : keepDir now st.recs s = false := by
        simp [keepDir, hlk, hexp]
      rw [this] at hf
      cases hf.2
    · exact lookup_filter_keep s _ st.recs r hlk (by simp [hmeta])
  · intro hmem hmeta hexp
    constructor
    · intro habs
      have hf := List.mem_filter.mp habs
      simp [hmeta] at hf
    · intro hlk hd
      apply List.mem_filter.mpr
      refine ⟨hd, ?_⟩
      simp [keepDir, hlk, hexp]
  · intro hd hlk
    apply List.mem_filter.mpr
    refine ⟨hd, ?_⟩
    simp [keepDir, hlk]

theorem C9_witness :
    (("a" ∉ (cleanup_expired_sessions 10 sweepFix).dirs ∧
      (cleanup_expired_sessions 10 sweepFix).recs.lookup "a" =
        some ⟨5, 20⟩) ∧
    (("b", (⟨20, 5⟩ : SweepRec)) ∉ (cleanup_expired_sessions 10 sweepFix).recs ∧
      "b" ∈ (cleanup_expired_sessions 10 sweepFix).dirs) ∧
    "c" ∈ (cleanup_expired_sessions 10 sweepFix).dirs) :=
  ⟨(C9_thm 10 sweepFix "a" ⟨5, 20⟩).1 (by decide) (by decide) (by decide)
      (by decide),
    ⟨((C9_thm 10 sweepFix "b" ⟨20, 5⟩).2.1 (by decide) (by decide)
        (by decide)).1,
      ((C9_thm 10 sweepFix "b" ⟨20, 5⟩).2.1 (by decide) (by decide)
        (by decide)).2 (by decide) (by decide)⟩,
    (C9_thm 10 sweepFix "c" ⟨0, 0⟩).2.2 (by decide) (by decide)⟩

/-! ## C10: flat extraction and overwrite on basename collisions -/

theorem extractLoop_ok : ∀ (l : List (Nat × ZipInfo)) (ws : List (List Char × Nat)),
    extractLoop l = .ok ws →
    ws = l.filterMap
      (fun p => if p.2.is_dir then none else some (uploadTarget p.2, p.1)) := by
  intro l
  induction l with
  | nil =>
    intro ws h
    simp only [extractLoop, Except.ok.injEq] at h
    simp [← h]
  | cons p rest ih =>
    intro ws h
    cases hd : p.2.is_dir with
    | true =>
      simp only [extractLoop, hd, if_true] at h
      simp only [List.filterMap_cons, hd, if_true]
      exact ih ws h
    | false =>
      simp only [extractLoop, hd, Bool.false_eq_true, if_false] at h
      by_cases h0 : uploadTarget p.2 = []
      · simp [h0] at h
      · by_cases h1 : uploadTarget p.2 = ['.', '.']
        · simp [h0, h1] at h
        · simp only [h0, h1, if_false] at h
          cases hrest : extractLoop rest with
          | error e => rw [hrest] at h; cases h
          | ok ws0 =>
            rw [hrest] at h
            simp only [Except.ok.injEq] at h
            subst h
            simp only [List.filterMap_cons, hd, Bool.false_eq_true, if_false]
            rw [ih ws0 hrest]

theorem fst_ge_of_mem_enumFrom {α : Type _} :
    ∀ (l : List α) (m : Nat) (q : Nat × α), q ∈ l.enumFrom m → m ≤ q.1 := by
  intro l
  induction l with
  | nil => intro m q hq; simp at hq
  | cons a t ih =>
    intro m q hq
    simp only [List.enumFrom] at hq
    rcases List.mem_cons.mp hq with rfl | hmem
    · exact Nat.le_refl m
    · exact Nat.le_of_succ_le (ih (m + 1) q hmem)

theorem pairwise_fst_lt_enumFrom {α : Type _} :
    ∀ (l : List α) (n : Nat),
      List.Pairwise (fun a b : Nat × α => a.1 < b.1) (l.enumFrom n) := by
  intro l
  induction l with
  | nil => intro n; simp
  | cons a t ih =>
    intro n
    simp only [List.enumFrom]
    refine List.Pairwise.cons ?_ (ih (n + 1))
    intro q hq
    have := fst_ge_of_mem_enumFrom t (n + 1) q hq
    omega

theorem expectedWrites_pairwise (entries : List ZipInfo) :
    List.Pairwise (fun a b : List Char × Nat => a.2 < b.2)
      (expectedWrites entries) := by
  unfold expectedWrites
  rw [List.pairwise_filterMap]
  refine List.Pairwise.imp ?_ (pairwise_fst_lt_enumFrom entries 0)
  intro a b hab x hx y hy
  cases hda : a.2.is_dir with
  | true => rw [if_pos hda] at hx; cases hx
  | false =>
    rw [if_neg (by simp [hda])] at hx
    cases hdb : b.2.is_dir with
    | true => rw [if_pos hdb] at hy; cases hy
    | false =>
      rw [if_neg (by simp [hdb])] at hy
      cases hx
      cases hy
      exact hab

theorem mem_of_getLast? {α : Type _} {l : List α} {y : α}
    (h : l.getLast? = some y) : y ∈ l := by
  obtain ⟨hne, rfl⟩ := List.mem_getLast?_eq_getLast (Option.mem_def.mpr h)
  exact List.getLast_mem hne

theorem le_of_getLast?_pairwise :
    ∀ (l : List (List Char × Nat)) (x y : List Char × Nat),
      List.Pairwise (fun a b => a.2 < b.2) l → x ∈ l → l.getLast? = some y →
      x.2 ≤ y.2 := by
  intro l
  induction l with
  | nil => intro x y _ hx; simp at hx
  | cons a t ih =>
    intro x y hp hx hy
    cases t with
    | nil =>
      simp only [List.getLast?_singleton, Option.some.injEq] at hy
      rcases List.mem_cons.mp hx with rfl | habs
      · rw [hy]
      · simp at habs
    | cons b u =>
      rw [List.getLast?_cons_cons] at hy
      rcases List.mem_cons.mp hx with rfl | hmem
      · have hymem : y ∈ b :: u := mem_of_getLast? hy
        have := (List.pairwise_cons.mp hp).1 y hymem
        omega
      · exact ih x y (List.pairwise_cons.mp hp).2 hmem hy

/-- C10: when upload extraction succeeds, the write list is exactly one
top-level write per non-directory entry, at the sanitized basename of the
entry's name (the archive's directory structure is not recreated); and for
two non-directory entries `i < j` whose sanitized basenames coincide, the
bytes that finally remain at that target come from a write of index at least
`j` — in particular not from entry `i`: the later entry overwrites the
earlier one. -/
theorem C10_thm (entries : List ZipInfo) (ws : List (List Char × Nat))
    (hok : extractLoop entries.enum = .ok ws)
    (i j : Nat) (hij : i < j) (hj : j < entries.length)
    (hdj : (entries.get ⟨j, hj⟩).is_dir = false)
    (_ht : uploadTarget (entries.get ⟨i, Nat.lt_trans hij hj⟩) =
      uploadTarget (entries.get ⟨j, hj⟩)) :
    ws = expectedWrites entries ∧
    ∃ k, finalWriter ws (uploadTarget (entries.get ⟨j, hj⟩)) = some k ∧
      j ≤ k ∧ i < k := by
  have hws : ws = expectedWrites entries := extractLoop_ok entries.enum ws hok
  refine ⟨hws, ?_⟩
  have hjl : j < entries.enum.length := by
    rw [List.enum_length]
    exact hj
  have hget : entries.enum.get ⟨j, hjl⟩ = (j, entries.get ⟨j, hj⟩) := by
    simp [List.get_eq_getElem, List.getElem_enum]
  have henum : ((j, entries.get ⟨j, hj⟩) : Nat × ZipInfo) ∈ entries.enum := by
    rw [← hget]
    exact entries.enum.get_mem j hjl
  have hmemws : (uploadTarget (entries.get ⟨j, hj⟩), j) ∈ ws := by
    rw [hws]
    unfold expectedWrites
    refine List.mem_filterMap.mpr ⟨(j, entries.get ⟨j, hj⟩), henum, ?_⟩
    rw [List.get_eq_getElem] at hdj
    simp [hdj]
  have hpw : List.Pairwise (fun a b : List Char × Nat => a.2 < b.2) ws := by
    rw [hws]
    exact expectedWrites_pairwise entries
  have hmemf : (uploadTarget (entries.get ⟨j, hj⟩), j) ∈
      ws.filter (fun w => w.1 = uploadTarget (entries.get ⟨j, hj⟩)) :=
    List.mem_filter.mpr ⟨hmemws, by simp⟩
  have hnef : ws.filter (fun w => w.1 = uploadTarget (entries.get ⟨j, hj⟩)) ≠
      [] := List.ne_nil_of_mem hmemf
  have hpwf : List.Pairwise (fun a b : List Char × Nat => a.2 < b.2)
      (ws.filter (fun w => w.1 = uploadTarget (entries.get ⟨j, hj⟩))) :=
    hpw.sublist (List.filter_sublist ws)
  have hy := List.getLast?_eq_getLast_of_ne_nil hnef
  have hle := le_of_getLast?_pairwise _
    (uploadTarget (entries.get ⟨j, hj⟩), j) _ hpwf hmemf hy
  refine ⟨_, ?_, hle, by omega⟩
  unfold finalWriter
  rw [hy]
  rfl

theorem C10_witness :
    ([("photo.jpg".toList, 0), ("photo.jpg".toList, 1)] :
        List (List Char × Nat)) = expectedWrites collideEntries ∧
    ∃ k, finalWriter [("photo.jpg".toList, 0), ("photo.jpg".toList, 1)]
        (uploadTarget (collideEntries.get ⟨1, by decide⟩)) = some k ∧
      1 ≤ k ∧ 0 < k :=
  C10_thm collideEntries [("photo.jpg".toList, 0), ("photo.jpg".toList, 1)]
    (by decide) 0 1 (by decide) (by decide) (by decide) (by decide)

end MediaZip
